import Mathlib

/-!
# Verification of the strum line-oriented decoder

A shallow embedding of the `strum` Go package (files `strum.go`, `types.go`):
a string unmarshaler that tokenizes line-oriented text and converts tokens
into Go values via reflection-style dispatch on the destination type.

Modelling choices (each noted again at the definition it concerns):

* Go `reflect` types are modelled by the inductive `GoType`; runtime values by
  `Value`.  A type that implements `encoding.TextUnmarshaler` is modelled by
  the `textUnm` constructor carrying its underlying type (its reflect `Kind`)
  and its `UnmarshalText` behaviour as a function.
* The input stream (`bufio.Scanner`) is modelled as the list of remaining
  lines; a failed `Scan` at the end of input is `io.EOF` (read errors of the
  underlying reader are outside the model, as in the spec they are an
  external collaborator).
* External library collaborators that strum merely invokes —
  `time.ParseDuration`, `strconv.ParseFloat`, and the `dateparse` date parser
  (the latter is a caller-replaceable `Decoder` field in the source) — are
  parameters: `Externals.parseDuration`, `Externals.parseFloat`, `Decoder.dp`.
  `strconv.ParseInt` / `strconv.ParseUint` are translated concretely because
  their behaviour is load-bearing for the numeric claims.
* Regular expressions are modelled by the semantics of
  `regexp.FindStringSubmatch`: a function returning `none` (no match) or
  `some (fullMatch, submatches)`.
-/

namespace Strum

/-- A Go runtime value, as far as strum's decoding can observe it.
`vFloat` stores the IEEE bit pattern produced by the (uninterpreted)
float parser; `vOpaque` is the zero value of kinds strum cannot decode. -/
inductive Value where
  | vDuration (ns : Int)
  | vTime (instant : Int)
  | vBool (b : Bool)
  | vString (s : String)
  | vInt (n : Int)
  | vUint (n : Nat)
  | vFloat (bits : Nat)
  | vStruct (fieldVals : List Value)
  | vSlice (elems : List Value)
  | vPtr (pointee : Option Value)
  | vOpaque

/-- A Go type, as far as strum's dispatch can observe it.

* `int w` / `uint w` / `float w` are the fixed-width kinds; `w` is
  `reflect.Type.Bits()`.
* `textUnm name underlying um` is a named type implementing
  `encoding.TextUnmarshaler`: `name` is its `Type().String()`, `underlying`
  gives its reflect `Kind`, and `um` is the behaviour of its `UnmarshalText`
  method (producing the receiver's new value, or an error message).
* `struct name fields` is a struct type; each field is
  `(fieldName, exported, fieldType)` (`exported` models `PkgPath == ""`).
  `name` stands for both `Type().Name()` and `Type().String()` (the package
  qualifier is not modelled).
* `other name` covers every kind strum does not support (map, chan, ...). -/
inductive GoType where
  | duration
  | time
  | bool
  | string
  | int (w : Nat)
  | uint (w : Nat)
  | float (w : Nat)
  | textUnm (name : String) (underlying : GoType) (um : String → Except String Value)
  | struct (name : String) (fields : List (String × Bool × GoType))
  | slice (elem : GoType)
  | ptr (elem : GoType)
  | other (name : String)

/-- `reflect.Type.String()` for the types of the model. -/
def typeName : GoType → String
  | .duration => "time.Duration"
  | .time => "time.Time"
  | .bool => "bool"
  | .string => "string"
  | .int w => "int" ++ toString w
  | .uint w => "uint" ++ toString w
  | .float w => "float" ++ toString w
  | .textUnm nm _ _ => nm
  | .struct nm _ => nm
  | .slice e => "[]" ++ typeName e
  | .other nm => nm
  | .ptr e => "*" ++ typeName e

/-- `isTextUnmarshaler` (types.go): does the type implement
`encoding.TextUnmarshaler`?  `*time.Time` implements it in Go (pointer
receiver `UnmarshalText`); a pointer to an implementing type also implements
it (Go method-set promotion, one pointer level only). -/
def isTextUnmarshaler : GoType → Bool
  | .textUnm _ _ _ => true
  | .ptr .time => true
  | .ptr (.textUnm _ _ _) => true
  | _ => false

/-- The reflect `Kind` buckets accepted by the kind switches of
`decodeToValue` / `isDecodableValue` (Bool, String, the Int kinds, the Uint
kinds, the Float kinds).  A named type's kind is its underlying kind; note
`time.Duration` has kind `int64` and `time.Time` kind `struct`, which is why
their exact-type dispatch arms precede the kind switches in the source. -/
def isScalarKind : GoType → Bool
  | .bool => true
  | .string => true
  | .int _ => true
  | .uint _ => true
  | .float _ => true
  | .textUnm _ u _ => isScalarKind u
  | .duration => true
  | _ => false

/-- `isDecodableValue` (types.go): duplicates the logic tree of
`decodeToValue` for eager validation.  The Go function receives a
`reflect.Value` but inspects only its type, so the model takes a `GoType`. -/
def isDecodableValue (t : GoType) : Bool :=
  match t with
  | .duration => true
  | .time => true
  | .ptr .time => true
  | t' => isTextUnmarshaler t' || isScalarKind t'

mutual

/-- `reflect.New(t).Elem()`: the zero value of a type. -/
def zeroValue : GoType → Value
  | .duration => .vDuration 0
  | .time => .vTime 0
  | .bool => .vBool false
  | .string => .vString ""
  | .int _ => .vInt 0
  | .uint _ => .vUint 0
  | .float _ => .vFloat 0
  | .textUnm _ u _ => zeroValue u
  | .struct _ fs => .vStruct (zeroFields fs)
  | .slice _ => .vSlice []
  | .ptr _ => .vPtr none
  | .other _ => .vOpaque

/-- Zero values of a struct's fields, in declared order. -/
def zeroFields : List (String × Bool × GoType) → List Value
  | [] => []
  | (_, _, t) :: rest => zeroValue t :: zeroFields rest

end

/-! ## strconv: ParseUint / ParseInt (base 0, as strum always calls them) -/

/-- Outcome kind of a `strconv.NumError`: `ErrSyntax` or `ErrRange`. -/
inductive NumErr where
  | invalid
  | outOfRange

/-- Go strconv's `lower(c)`: force the ASCII 0x20 bit. -/
def lowerC (c : Char) : Char := Char.ofNat (c.toNat ||| 0x20)

/-- The digit classification of `ParseUint`'s scan loop: decimal digits and
letters (via `lower`), or no digit at all. -/
def charDigit (c : Char) : Option Nat :=
  if '0' ≤ c ∧ c ≤ '9' then some (c.toNat - '0'.toNat)
  else if 'a' ≤ lowerC c ∧ lowerC c ≤ 'z' then some ((lowerC c).toNat - 'a'.toNat + 10)
  else none

/-- Base detection of `ParseUint` with base argument 0: `0b`/`0o`/`0x`
prefixes (when at least one character follows), else a leading `0` means
octal, else decimal.  Returns the detected base and the remaining digits. -/
def detectBase (s0 : List Char) : Nat × List Char :=
  match s0 with
  | c0 :: rest =>
    if c0 = '0' then
      match rest with
      | c1 :: c2 :: rest2 =>
        if lowerC c1 = 'b' then (2, c2 :: rest2)
        else if lowerC c1 = 'o' then (8, c2 :: rest2)
        else if lowerC c1 = 'x' then (16, c2 :: rest2)
        else (8, rest)
      | _ => (8, rest)
    else (10, s0)
  | [] => (10, [])

/-- The digit loop of `ParseUint`.  `base0` records that the caller passed
base 0, which permits underscores (validated afterwards by `underscoreOK`);
`cutoff` and `maxVal` are as in the Go source (`maxUint64/base + 1` and
`2^bitSize - 1`); the accumulated value and an underscores-seen flag are
threaded through.  Machine-integer overflow of `n*base + d` is detected in Go
by the combination of the `cutoff` test and the wraparound test `n1 < n`; over
`Nat` both collapse into the explicit comparisons kept here. -/
def parseUintLoop (base0 : Bool) (base cutoff maxVal : Nat) :
    List Char → Nat → Bool → Except NumErr (Nat × Bool)
  | [], n, us => .ok (n, us)
  | c :: cs, n, us =>
    if c = '_' && base0 then
      parseUintLoop base0 base cutoff maxVal cs n true
    else
      match charDigit c with
      | none => .error .invalid
      | some d =>
        if base ≤ d then .error .invalid
        else if cutoff ≤ n then .error .outOfRange
        else if maxVal < n * base + d then .error .outOfRange
        else parseUintLoop base0 base cutoff maxVal cs (n * base + d) us

/-- strconv's `underscoreOK` loop: `saw` is the class of the previous
character (`^` start, `0` digit or base prefix, `_` underscore, `!` other). -/
def underscoreOKLoop (hex : Bool) : List Char → Char → Bool
  | [], saw => saw ≠ '_'
  | c :: cs, saw =>
    if ('0' ≤ c ∧ c ≤ '9') ∨ (hex ∧ 'a' ≤ lowerC c ∧ lowerC c ≤ 'f') then
      underscoreOKLoop hex cs '0'
    else if c = '_' then
      if saw ≠ '0' then false else underscoreOKLoop hex cs '_'
    else if saw = '_' then false
    else underscoreOKLoop hex cs '!'

/-- strconv's `underscoreOK`: underscores must separate successive digits
(the base prefix counting as a digit). -/
def underscoreOK (s : List Char) : Bool :=
  let s1 := match s with
    | c :: rest => if c = '-' ∨ c = '+' then rest else s
    | [] => s
  match s1 with
  | '0' :: c2 :: rest =>
    if lowerC c2 = 'b' ∨ lowerC c2 = 'o' ∨ lowerC c2 = 'x' then
      underscoreOKLoop (lowerC c2 = 'x') rest '0'
    else underscoreOKLoop false s1 '^'
  | _ => underscoreOKLoop false s1 '^'

/-- `strconv.ParseUint(s, 0, bitSize)` over the character list of `s`
(strum always passes base 0, and always a valid `Bits()` bit size).  The
loop's cutoff `maxUint64/base + 1` and bound `2^bitSize - 1` are written
inline. -/
def parseUintChars (s0 : List Char) (bitSize : Nat) : Except NumErr Nat :=
  if s0 = [] then .error .invalid
  else
    match parseUintLoop true (detectBase s0).1 ((2 ^ 64 - 1) / (detectBase s0).1 + 1)
        (2 ^ bitSize - 1) (detectBase s0).2 0 false with
    | .error e => .error e
    | .ok (n, us) => if us && !underscoreOK s0 then .error .invalid else .ok n

/-- `strconv.ParseUint(s, 0, bitSize)`. -/
def parseUint (s : String) (bitSize : Nat) : Except NumErr Nat :=
  parseUintChars s.data bitSize

/-- `strconv.ParseInt(s, 0, bitSize)`: strip an optional sign, run
`ParseUint(s, 0, 64)` (whose non-range errors are reported as syntax errors),
then range-check against the signed cutoff `2^(bitSize-1)`. -/
def parseInt (s : String) (bitSize : Nat) : Except NumErr Int :=
  if s.data = [] then .error .invalid
  else
    let signed : Bool × List Char :=
      match s.data with
      | '+' :: rest => (false, rest)
      | '-' :: rest => (true, rest)
      | l => (false, l)
    match parseUintChars signed.2 64 with
    | .error .invalid => .error .invalid
    | .error .outOfRange => .error .outOfRange
    | .ok un =>
      let cutoff := 2 ^ (bitSize - 1)
      if !signed.1 && cutoff ≤ un then .error .outOfRange
      else if signed.1 && cutoff < un then .error .outOfRange
      else .ok (if signed.1 then -(un : Int) else (un : Int))

/-- Go `%q` of a token (escaping is not modelled; the tokens of interest
contain no characters needing escapes). -/
def goQuote (s : String) : String := "\"" ++ s ++ "\""

/-- `(*strconv.NumError).Error()`. -/
def numErrorString (fn s : String) (e : NumErr) : String :=
  "strconv." ++ fn ++ ": parsing " ++ goQuote s ++ ": " ++
    (match e with
     | .invalid => "invalid syntax"
     | .outOfRange => "value out of range")

/-- Go `strings.ToLower`, restricted to ASCII (the only case arising in the
boolean literals strum compares against). -/
def sToLower (s : String) : String :=
  String.mk (s.data.map (fun c => if 'A' ≤ c ∧ c ≤ 'Z' then lowerC c else c))

/-! ## The Decoder and its tokenizers -/

/-- Decoding errors.  `eof` is `io.EOF` (the end-of-input sentinel);
everything else is carried as its Go error message. -/
inductive DErr where
  | eof
  | msg (s : String)

/-- `decodingError` (types.go): wrap a failure with the destination name. -/
def decodingError (name e : String) : DErr :=
  .msg ("error decoding to " ++ name ++ ": " ++ e)

/-- The external library parsers strum invokes but does not define:
`time.ParseDuration` and `strconv.ParseFloat` (the latter producing the IEEE
bit pattern of the parsed float; float semantics are not interpreted further
since no behaviour of strum depends on them). -/
structure Externals where
  parseDuration : String → Except String Int
  parseFloat : String → Nat → Except String Nat

/-- The `Decoder` (strum.go): the remaining input lines (the
`bufio.Scanner`), the active tokenizer `t`, and the active date parser
`dp`. -/
structure Decoder where
  lines : List String
  t : String → Except String (List String)
  dp : String → Except String Int

/-- `strings.Fields`: split on whitespace runs, keeping only non-empty
fields. -/
def fields (s : String) : List String :=
  (s.split Char.isWhitespace).filter (fun w => !w.isEmpty)

/-- `NewDecoder`: whitespace tokenizer, `dateparse.ParseAny` date parser
(the latter supplied as a parameter, being an external library). -/
def NewDecoder (dateparseAny : String → Except String Int)
    (input : List String) : Decoder :=
  { lines := input, t := fun s => .ok (fields s), dp := dateparseAny }

/-- `WithDateParser`. -/
def WithDateParser (d : Decoder) (dp : String → Except String Int) : Decoder :=
  { d with dp := dp }

/-- `WithTokenizer`. -/
def WithTokenizer (d : Decoder) (t : String → Except String (List String)) :
    Decoder :=
  { d with t := t }

/-- `WithTokenRegexp`: tokenize by calling `FindStringSubmatch` on each line.
The regexp is modelled by its `FindStringSubmatch` semantics `re`: applied to
the whole line it yields `none` (no match) or `some (fullMatch, submatches)`,
Go's nil-or-`[fullMatch, sub1, ...]` result split into head and tail.  A
failed match or a regexp without capture groups (result length 1) is an
error; otherwise the full match is dropped and the submatches are the
tokens. -/
def WithTokenRegexp (d : Decoder) (re : String → Option (String × List String)) :
    Decoder :=
  WithTokenizer d
    (fun s =>
      match re s with
      | none => .error ("regexp failed to match line " ++ s)
      | some (full, subs) =>
        if (full :: subs).length = 1 then .error "regexp has no subexpressions"
        else .ok subs)

/-- `WithSplitOn`: split fields on a literal separator. -/
def WithSplitOn (d : Decoder) (sep : String) : Decoder :=
  WithTokenizer d (fun s => .ok (s.splitOn sep))

/-- `readline`: pop the next line, or `io.EOF` when input is exhausted. -/
def readline (d : Decoder) : Decoder × Except DErr String :=
  match d.lines with
  | [] => (d, .error .eof)
  | l :: rest => ({ d with lines := rest }, .ok l)

/-- `Tokens`: consume a line and run the active tokenizer on it. -/
def Tokens (d : Decoder) : Decoder × Except DErr (List String) :=
  match readline d with
  | (d', .error e) => (d', .error e)
  | (d', .ok l) =>
    (d',
      match d'.t l with
      | .ok ts => .ok ts
      | .error e => .error (.msg e))

/-- `maybeInstantiatePtr` (types.go): a nil pointer is pointed at a freshly
allocated zero value of its element type; anything else is left alone.  The
element type is passed explicitly because model values carry no type. -/
def maybeInstantiatePtr (elemTy : GoType) (v : Value) : Value :=
  match v with
  | .vPtr none => .vPtr (some (zeroValue elemTy))
  | _ => v

/-- `reflect.Value.Elem()` of a (non-nil) pointer value; the fallback zero
value is unreachable for well-typed instantiated pointers. -/
def pointee (elemTy : GoType) (v : Value) : Value :=
  match v with
  | .vPtr (some w) => w
  | _ => zeroValue elemTy

/-! ## decodeToValue: one token into one value -/

/-- `decodeToValue` (types.go): convert a single token `s` into a value of
type `ty`, reporting failures against `name`.  Dispatch order is that of the
source: exact types `time.Duration`, `time.Time`, `*time.Time` first, then
`TextUnmarshaler` implementors (for a pointer implementor, `UnmarshalText`
is invoked on the freshly instantiated pointer and mutates its pointee),
then the kind switch, with pointers recursing after `maybeInstantiatePtr`.

The model returns the decoded value rather than mutating `v` in place; on
an error the Go destination may retain partial writes, which no observable
behaviour of the package depends on. -/
def decodeToValue (E : Externals) (dp : String → Except String Int)
    (name : String) (ty : GoType) (v : Value) (s : String) : Except DErr Value :=
  match ty with
  | .duration =>
    match E.parseDuration s with
    | .ok n => .ok (.vDuration n)
    | .error e => .error (decodingError name e)
  | .time =>
    match dp s with
    | .ok i => .ok (.vTime i)
    | .error e => .error (decodingError name e)
  | .ptr .time =>
    -- handled recursively, to avoid using TextUnmarshaler
    match decodeToValue E dp name .time (pointee .time (maybeInstantiatePtr .time v)) s with
    | .ok w => .ok (.vPtr (some w))
    | .error e => .error e
  | .textUnm _ _ um =>
    match um s with
    | .ok w => .ok w
    | .error e => .error (decodingError name e)
  | .ptr (.textUnm _ _ um) =>
    match um s with
    | .ok w => .ok (.vPtr (some w))
    | .error e => .error (decodingError name e)
  | .bool =>
    if sToLower s = "true" then .ok (.vBool true)
    else if sToLower s = "false" then .ok (.vBool false)
    else .error (decodingError name ("error decoding '" ++ s ++ "' as boolean"))
  | .string => .ok (.vString s)
  | .int w =>
    match parseInt s w with
    | .ok n => .ok (.vInt n)
    | .error e => .error (decodingError name (numErrorString "ParseInt" s e))
  | .uint w =>
    match parseUint s w with
    | .ok n => .ok (.vUint n)
    | .error e => .error (decodingError name (numErrorString "ParseUint" s e))
  | .float w =>
    match E.parseFloat s w with
    | .ok bits => .ok (.vFloat bits)
    | .error e => .error (decodingError name e)
  | .ptr et =>
    match decodeToValue E dp name et (pointee et (maybeInstantiatePtr et v)) s with
    | .ok w => .ok (.vPtr (some w))
    | .error e => .error e
  | t' => .error (decodingError name ("unsupported type " ++ typeName t'))

/-! ## The per-shape decode routines -/

/-- `decodeSingleToken`: tokenize the current line, require exactly one
token, and convert it. -/
def decodeSingleToken (E : Externals) (d : Decoder) (ty : GoType) (v : Value) :
    Decoder × Except DErr Value :=
  match Tokens d with
  | (d', .error e) => (d', .error e)
  | (d', .ok ts) =>
    match ts with
    | [s] => (d', decodeToValue E d'.dp (typeName ty) ty v s)
    | _ =>
      (d', .error (.msg ("decoding " ++ typeName ty ++ ": expected 1 token, but found "
        ++ toString ts.length)))

/-- `decodeLine`: consume the next line whole, bypassing the tokenizer. -/
def decodeLine (E : Externals) (d : Decoder) (ty : GoType) (v : Value) :
    Decoder × Except DErr Value :=
  match readline d with
  | (d', .error e) => (d', .error e)
  | (d', .ok l) => (d', decodeToValue E d'.dp (typeName ty) ty v l)

/-- The field loop of `decodeStruct`: tokens are assigned to fields in
declared order (each field starting from its zero value, the struct having
been reset); fields beyond the tokens keep their zero value; a token beyond
the last field is an arity error; an unexported field receiving a token is
an error. -/
def decodeFields (E : Externals) (dp : String → Except String Int)
    (structName : String) :
    List (String × Bool × GoType) → List String → Except DErr (List Value)
  | fs, [] => .ok (zeroFields fs)
  | [], _ :: _ => .error (.msg ("too many tokens for struct " ++ structName))
  | (fname, exported, fty) :: fs, s :: ts =>
    if !exported then
      .error (.msg ("cannot decode to unexported field " ++ structName ++ "." ++ fname))
    else
      match decodeToValue E dp (structName ++ "." ++ fname) fty (zeroValue fty) s with
      | .error e => .error e
      | .ok w =>
        match decodeFields E dp structName fs ts with
        | .error e => .error e
        | .ok ws => .ok (w :: ws)

/-- `decodeStruct`: tokenize the line, zero the destination struct (the model
builds the result from zero values, so the prior contents `v` are discarded
exactly as `destValue.Set(reflect.New(destType).Elem())` discards them), then
map tokens onto fields. -/
def decodeStruct (E : Externals) (d : Decoder) (ty : GoType) (_v : Value) :
    Decoder × Except DErr Value :=
  match Tokens d with
  | (d', .error e) => (d', .error e)
  | (d', .ok ts) =>
    match ty with
    | .struct nm fs =>
      (d',
        match decodeFields E d'.dp nm fs ts with
        | .ok ws => .ok (.vStruct ws)
        | .error e => .error e)
    | t' => (d', .error (.msg ("cannot decode into type " ++ typeName t')))

/-- The element loop of `decodeSlice`: each token is decoded into a freshly
allocated zero element, failures named `element i`. -/
def decodeElems (E : Externals) (dp : String → Except String Int) (et : GoType) :
    Nat → List String → Except DErr (List Value)
  | _, [] => .ok []
  | i, s :: ts =>
    match decodeToValue E dp ("element " ++ toString i) et (zeroValue et) s with
    | .error e => .error e
    | .ok w =>
      match decodeElems E dp et (i + 1) ts with
      | .error e => .error e
      | .ok ws => .ok (w :: ws)

/-- `reflect.Append`, repeatedly: decoded elements are appended to whatever
the destination slice already holds. -/
def appendSlice (v : Value) (ws : List Value) : Value :=
  match v with
  | .vSlice old => .vSlice (old ++ ws)
  | _ => .vSlice ws

/-- `decodeSlice`: eagerly reject element types `isDecodableValue` refuses,
before any input is consumed; otherwise tokenize the line and append one
decoded element per token.  On a mid-line element failure the Go destination
retains the elements appended so far; the model reports only the error, and
no observable behaviour of the package depends on that partial state. -/
def decodeSlice (E : Externals) (d : Decoder) (ty : GoType) (v : Value) :
    Decoder × Except DErr Value :=
  match ty with
  | .slice et =>
    if !isDecodableValue et then
      (d, .error (.msg ("decoding to this slice type not supported: " ++ typeName (.slice et))))
    else
      match Tokens d with
      | (d', .error e) => (d', .error e)
      | (d', .ok ts) =>
        (d',
          match decodeElems E d'.dp et 0 ts with
          | .ok ws => .ok (appendSlice v ws)
          | .error e => .error e)
  | t' => (d, .error (.msg ("cannot decode into type " ++ typeName t')))

/-- `decode` (strum.go): the type-aware dispatcher.  The source tests, in
order: the exact types `time.Duration` / `time.Time` / `*time.Time`;
`isTextUnmarshaler`; then the destination kind.  The match below flattens
that sequence into constructor arms — the `textUnm` and `ptr textUnm` arms
are exactly the non-special types with `isTextUnmarshaler = true` (see
`decode_isTextUnmarshaler` below), and the remaining arms mirror the kind
switch, with `ptr` instantiating nil pointers and recursing into the
element. -/
def decode (E : Externals) (d : Decoder) (ty : GoType) (v : Value) :
    Decoder × Except DErr Value :=
  match ty with
  | .duration => decodeSingleToken E d .duration v
  | .time => decodeSingleToken E d .time v
  | .ptr .time => decodeSingleToken E d (.ptr .time) v
  | .textUnm nm u um => decodeSingleToken E d (.textUnm nm u um) v
  | .ptr (.textUnm nm u um) => decodeSingleToken E d (.ptr (.textUnm nm u um)) v
  | .bool => decodeSingleToken E d .bool v
  | .string => decodeLine E d .string v
  | .int w => decodeSingleToken E d (.int w) v
  | .uint w => decodeSingleToken E d (.uint w) v
  | .float w => decodeSingleToken E d (.float w) v
  | .struct nm fs => decodeStruct E d (.struct nm fs) v
  | .slice et => decodeSlice E d (.slice et) v
  | .ptr et =>
    match decode E d et (pointee et (maybeInstantiatePtr et v)) with
    | (d', .ok w) => (d', .ok (.vPtr (some w)))
    | (d', .error e) => (d', .error e)
  | .other nm => (d, .error (.msg ("cannot decode into type " ++ nm)))

/-! ## decodeAll: the batch driver -/

theorem Tokens_ok_lines {d d' : Decoder} {ts : List String}
    (h : Tokens d = (d', .ok ts)) : d'.lines.length + 1 = d.lines.length := by
  cases hl : d.lines with
  | nil => simp [Tokens, readline, hl] at h
  | cons l rest =>
    simp only [Tokens, readline, hl] at h
    cases ht : d.t l with
    | ok ts2 =>
      rw [ht] at h
      simp at h
      rw [← h.1]
      simp [hl]
    | error e =>
      rw [ht] at h
      simp at h

theorem readline_ok_lines {d d' : Decoder} {l : String}
    (h : readline d = (d', .ok l)) : d'.lines.length + 1 = d.lines.length := by
  cases hl : d.lines with
  | nil => simp [readline, hl] at h
  | cons l0 rest => simp [readline, hl] at h; simp [← h.1, hl]

theorem decodeSingleToken_ok_lines {E : Externals} {d d' : Decoder}
    {ty : GoType} {v w : Value}
    (h : decodeSingleToken E d ty v = (d', .ok w)) :
    d'.lines.length + 1 = d.lines.length := by
  unfold decodeSingleToken at h
  rcases htk : Tokens d with ⟨d1, r⟩
  rw [htk] at h
  cases r with
  | error e => simp at h
  | ok ts =>
    have := Tokens_ok_lines htk
    cases ts with
    | nil => simp at h
    | cons s rest =>
      cases rest with
      | nil => simp at h; rw [← h.1]; exact this
      | cons s2 rest2 => simp at h

theorem decodeLine_ok_lines {E : Externals} {d d' : Decoder}
    {ty : GoType} {v w : Value}
    (h : decodeLine E d ty v = (d', .ok w)) :
    d'.lines.length + 1 = d.lines.length := by
  unfold decodeLine at h
  rcases hrl : readline d with ⟨d1, r⟩
  rw [hrl] at h
  cases r with
  | error e => simp at h
  | ok l =>
    have := readline_ok_lines hrl
    simp at h; rw [← h.1]; exact this

theorem decodeStruct_ok_lines {E : Externals} {d d' : Decoder}
    {ty : GoType} {v w : Value}
    (h : decodeStruct E d ty v = (d', .ok w)) :
    d'.lines.length + 1 = d.lines.length := by
  unfold decodeStruct at h
  rcases htk : Tokens d with ⟨d1, r⟩
  rw [htk] at h
  cases r with
  | error e => simp at h
  | ok ts =>
    have := Tokens_ok_lines htk
    cases ty with
    | struct nm fs =>
      simp at h; rw [← h.1]; exact this
    | _ => simp at h

theorem decodeSlice_ok_lines {E : Externals} {d d' : Decoder}
    {ty : GoType} {v w : Value}
    (h : decodeSlice E d ty v = (d', .ok w)) :
    d'.lines.length + 1 = d.lines.length := by
  unfold decodeSlice at h
  cases ty with
  | slice et =>
    by_cases hd : isDecodableValue et
    · simp only [hd] at h
      rcases htk : Tokens d with ⟨d1, r⟩
      rw [htk] at h
      cases r with
      | error e => simp at h
      | ok ts =>
        have := Tokens_ok_lines htk
        simp at h; rw [← h.1]; exact this
    · simp [hd] at h
  | _ => simp at h

/-- Pointer-indirection depth, the only recursion of `decode`. -/
def ptrDepth : GoType → Nat
  | .ptr e => ptrDepth e + 1
  | _ => 0

theorem decode_ok_lines_aux {E : Externals} :
    ∀ (n : Nat) (ty : GoType), ptrDepth ty ≤ n →
      ∀ {d d' : Decoder} {v w : Value},
        decode E d ty v = (d', .ok w) → d'.lines.length + 1 = d.lines.length := by
  intro n
  induction n using Nat.strong_induction_on with
  | _ n ih =>
    intro ty hty d d' v w h
    cases ty with
    | duration => exact decodeSingleToken_ok_lines h
    | time => exact decodeSingleToken_ok_lines h
    | bool => exact decodeSingleToken_ok_lines h
    | string => exact decodeLine_ok_lines h
    | int w0 => exact decodeSingleToken_ok_lines h
    | uint w0 => exact decodeSingleToken_ok_lines h
    | float w0 => exact decodeSingleToken_ok_lines h
    | textUnm nm u um => exact decodeSingleToken_ok_lines h
    | struct nm fs => exact decodeStruct_ok_lines h
    | slice et => exact decodeSlice_ok_lines h
    | other nm => simp [decode] at h
    | ptr et =>
      cases et with
      | time => exact decodeSingleToken_ok_lines h
      | textUnm nm u um => exact decodeSingleToken_ok_lines h
      | _ =>
        simp only [decode] at h
        first
        | (rcases hrec : decodeSingleToken E d _ (pointee _ (maybeInstantiatePtr _ v)) with ⟨d1, r⟩
           rw [hrec] at h
           cases r with
           | ok w1 =>
             simp at h
             rw [← h.1]
             exact decodeSingleToken_ok_lines hrec
           | error e => simp at h)
        | (rcases hrec : decodeLine E d _ (pointee _ (maybeInstantiatePtr _ v)) with ⟨d1, r⟩
           rw [hrec] at h
           cases r with
           | ok w1 =>
             simp at h
             rw [← h.1]
             exact decodeLine_ok_lines hrec
           | error e => simp at h)
        | (rcases hrec : decodeStruct E d _ (pointee _ (maybeInstantiatePtr _ v)) with ⟨d1, r⟩
           rw [hrec] at h
           cases r with
           | ok w1 =>
             simp at h
             rw [← h.1]
             exact decodeStruct_ok_lines hrec
           | error e => simp at h)
        | (rcases hrec : decodeSlice E d _ (pointee _ (maybeInstantiatePtr _ v)) with ⟨d1, r⟩
           rw [hrec] at h
           cases r with
           | ok w1 =>
             simp at h
             rw [← h.1]
             exact decodeSlice_ok_lines hrec
           | error e => simp at h)
        | (rcases hrec : decode E d _ (pointee _ (maybeInstantiatePtr _ v)) with ⟨d1, r⟩
           rw [hrec] at h
           cases r with
           | ok w1 =>
             simp at h
             rw [← h.1]
             simp only [ptrDepth] at hty
             exact ih (n - 1) (by omega) _ (by simp only [ptrDepth]; omega) hrec
           | error e => simp at h)
        | simp at h

/-- A successful `decode` consumes exactly one line of input. -/
theorem decode_ok_lines {E : Externals} {ty : GoType}
    {d d' : Decoder} {v w : Value}
    (h : decode E d ty v = (d', .ok w)) : d'.lines.length + 1 = d.lines.length :=
  decode_ok_lines_aux (ptrDepth ty) ty le_rfl h

/-- `decodeAll` (strum.go): repeatedly decode a line into a fresh zero value
of the element type, appending each success to the accumulated slice
contents, until `decode` reports `io.EOF` (success) or any other error
(propagated, with the elements appended so far still in place).  The result
is the final decoder, the final slice contents, and `none` on success or the
propagated error message. -/
def decodeAll (E : Externals) (d : Decoder) (elemTy : GoType)
    (acc : List Value) : Decoder × List Value × Option String :=
  match h : decode E d elemTy (zeroValue elemTy) with
  | (d', .error .eof) => (d', acc, none)
  | (d', .error (.msg e)) => (d', acc, some e)
  | (d', .ok w) => decodeAll E d' elemTy (acc ++ [w])
termination_by d.lines.length
decreasing_by
  have := decode_ok_lines h
  omega

/-! ## Helper definitions for concrete runs and claim-level relations -/

/-- Stub externals for concrete runs: neither duration nor float parsing is
exercised by them. -/
def extStub : Externals :=
  { parseDuration := fun _ => .error "unused", parseFloat := fun _ _ => .error "unused" }

/-- Stub date parser for concrete runs. -/
def dpStub : String → Except String Int := fun _ => .error "unused"

/-- A custom tokenizer (usable via `WithTokenizer`) returning the whole line
as a single token; used to drive concrete runs. -/
def idTok : String → Except String (List String) := fun s => .ok [s]

/-- A decoder with the `idTok` tokenizer and stub date parser. -/
def mkDecoder (input : List String) : Decoder :=
  { lines := input, t := idTok, dp := dpStub }

/-- The destination shapes `decode` routes through `decodeSingleToken`:
duration, timestamp (and pointer to timestamp), text-decodable (and pointer
to text-decodable), boolean, the integer kinds, and the float kinds. -/
def singleTokenShaped : GoType → Bool
  | .duration | .time | .ptr .time => true
  | .textUnm _ _ _ | .ptr (.textUnm _ _ _) => true
  | .bool | .int _ | .uint _ | .float _ => true
  | _ => false

/-- A tokenizer producing two tokens for any line, for the C3 witness. -/
def twoTok : String → Except String (List String) := fun _ => .ok ["a", "b"]

/-- The `FindStringSubmatch` behaviour of `^(\S+)\s+(\d+)x(\d+)` on the
line `John 23x42`. -/
def reJohn : String → Option (String × List String) :=
  fun s => if s = "John 23x42" then some ("John 23x42", ["John", "23", "42"]) else none

/-- The `FindStringSubmatch` behaviour of a pattern with no capture
groups (it returns only the full match). -/
def reZero : String → Option (String × List String) := fun s => some (s, [])

/-- A tokenizer that fails on every line, for the C6 witness. -/
def boomTok : String → Except String (List String) := fun _ => .error "boom"

/-- Iterated pointer types: `ptrIterTy k t` is `t` behind `k` levels of
indirection. -/
def ptrIterTy : Nat → GoType → GoType
  | 0, t => t
  | k + 1, t => .ptr (ptrIterTy k t)

/-- Iterated non-nil pointer values. -/
def someIter : Nat → Value → Value
  | 0, v => v
  | k + 1, v => .vPtr (some (someIter k v))

/-- The plain scalar kinds of C10: boolean, integer, unsigned integer,
float — kinds whose pointer succeeds as a direct destination yet is refused
as a slice element. -/
def plainScalarKind : GoType → Bool
  | .bool | .int _ | .uint _ | .float _ => true
  | _ => false

/-- Per-field success of the struct field loop: tokens `ts` decode, in
declared order, into the exported fields at the head of `fs` (each starting
from its zero value), producing `ws`. -/
inductive FieldsDecodeOk (E : Externals) (dp : String → Except String Int) (nm : String) :
    List (String × Bool × GoType) → List String → List Value → Prop
  | nil (fs) : FieldsDecodeOk E dp nm fs [] []
  | cons {fname : String} {fty : GoType} {fs : List (String × Bool × GoType)}
      {s : String} {ts : List String} {w : Value} {ws : List Value} :
      decodeToValue E dp (nm ++ "." ++ fname) fty (zeroValue fty) s = .ok w →
      FieldsDecodeOk E dp nm fs ts ws →
      FieldsDecodeOk E dp nm ((fname, true, fty) :: fs) (s :: ts) (w :: ws)

/-- Per-token success of the slice element loop: the tokens of the line,
numbered from `i`, each decode into a fresh zero value of the element type,
producing `ws`. -/
inductive ElemsDecode (E : Externals) (dp : String → Except String Int) (et : GoType) :
    Nat → List String → List Value → Prop
  | nil (i : Nat) : ElemsDecode E dp et i [] []
  | cons {i : Nat} {s : String} {ts : List String} {w : Value} {ws : List Value} :
      decodeToValue E dp ("element " ++ toString i) et (zeroValue et) s = .ok w →
      ElemsDecode E dp et (i + 1) ts ws →
      ElemsDecode E dp et i (s :: ts) (w :: ws)

/-- A tokenizer producing the two tokens `1` and `2`, for the C9 witness. -/
def pairTok : String → Except String (List String) := fun _ => .ok ["1", "2"]

/-- A run of consecutive successful line decodes: starting from decoder `d`,
each step decodes a fresh zero value of `ty`, producing the listed values in
order and ending at decoder `d₁`.  This is the hypothesis under which the
batch driver's behaviour is characterized. -/
inductive DecodeChain (E : Externals) (ty : GoType) : Decoder → List Value → Decoder → Prop
  | nil (d : Decoder) : DecodeChain E ty d [] d
  | cons {d d' d'' : Decoder} {w : Value} {ws : List Value} :
      decode E d ty (zeroValue ty) = (d', .ok w) →
      DecodeChain E ty d' ws d'' →
      DecodeChain E ty d (w :: ws) d''

/-- A valid digit of the given base, with its value (digit classification of
`charDigit` restricted by the base). -/
def digitVal (base : Nat) (c : Char) : Option Nat :=
  match charDigit c with
  | some d => if d < base then some d else none
  | none => none

/-- Reference positional value of a digit string in a base, accumulated onto
`n`; `none` if any character is not a valid digit of the base. -/
def digitsVal (base : Nat) : List Char → Nat → Option Nat
  | [], n => some n
  | c :: cs, n =>
    match digitVal base c with
    | some d => digitsVal base cs (n * base + d)
    | none => none

/-- Reference semantics of a well-formed non-negative Go numeric literal
(optional `0b`/`0o`/`0x`/leading-`0` base prefix, then digits of that base;
digit-group underscores are outside this reference grammar): its numeric
value, or `none` if malformed. -/
def uintLitVal (s : String) : Option Nat :=
  if s.data = [] then none
  else digitsVal (detectBase s.data).1 (detectBase s.data).2 0

/-! ## Unfolding lemmas shared by the claim proofs -/

/-- Sanity check for the flattening in `decode`: every non-special type the
source routes through the `isTextUnmarshaler` test to `decodeSingleToken` is
routed there by `decode`. -/
theorem decode_isTextUnmarshaler (E : Externals) (d : Decoder) (ty : GoType)
    (v : Value) (h : isTextUnmarshaler ty = true) :
    decode E d ty v = decodeSingleToken E d ty v := by
  cases ty with
  | textUnm nm u um => rfl
  | ptr et =>
    cases et with
    | time => rfl
    | textUnm nm u um => rfl
    | _ => simp [isTextUnmarshaler] at h
  | _ => simp [isTextUnmarshaler] at h

theorem Tokens_run {d : Decoder} {l : String} {rest ts : List String}
    (hl : d.lines = l :: rest) (ht : d.t l = .ok ts) :
    Tokens d = ({ d with lines := rest }, .ok ts) := by
  simp only [Tokens, readline, hl]
  simp [ht]

theorem decodeSingleToken_one {E : Externals} {d : Decoder} {ty : GoType}
    {v : Value} {l s : String} {rest : List String}
    (hl : d.lines = l :: rest) (ht : d.t l = .ok [s]) :
    decodeSingleToken E d ty v =
      ({ d with lines := rest }, decodeToValue E d.dp (typeName ty) ty v s) := by
  simp only [decodeSingleToken, Tokens_run hl ht]

theorem decodeSingleToken_arity {E : Externals} {d : Decoder} {ty : GoType}
    {v : Value} {l : String} {rest ts : List String}
    (hl : d.lines = l :: rest) (ht : d.t l = .ok ts) (hlen : ts.length ≠ 1) :
    decodeSingleToken E d ty v =
      ({ d with lines := rest },
        .error (.msg ("decoding " ++ typeName ty ++ ": expected 1 token, but found "
          ++ toString ts.length))) := by
  simp only [decodeSingleToken, Tokens_run hl ht]
  cases ts with
  | nil => rfl
  | cons s ts2 =>
    cases ts2 with
    | nil => simp at hlen
    | cons s2 ts3 => rfl

theorem decodeLine_run {E : Externals} {d : Decoder} {ty : GoType}
    {v : Value} {l : String} {rest : List String} (hl : d.lines = l :: rest) :
    decodeLine E d ty v =
      ({ d with lines := rest }, decodeToValue E d.dp (typeName ty) ty v l) := by
  simp only [decodeLine, readline, hl]

/-! ## C1: TextUnmarshaler priority -/

/-- C1: for a destination type implementing the text-unmarshaler capability
which is not the duration, timestamp, or timestamp-pointer type — in the
model, either a `textUnm` type or a pointer to one — `decode` performs a
single-token parse that invokes the capability: the outcome is exactly that
of `UnmarshalText` on the one token, independent of the type's underlying
kind `u`, so built-in kind dispatch is never consulted, and a capability
failure is wrapped with the destination's type name (`nm`, or `*nm` for the
pointer implementor). -/
theorem claim1_textUnmarshaler_priority
    (E : Externals) (d : Decoder) (nm : String) (u : GoType)
    (um : String → Except String Value) (v : Value)
    (l s : String) (rest : List String)
    (hl : d.lines = l :: rest) (ht : d.t l = .ok [s]) :
    decode E d (.textUnm nm u um) v = decodeSingleToken E d (.textUnm nm u um) v
    ∧ decode E d (.textUnm nm u um) v =
        ({ d with lines := rest },
          match um s with
          | .ok w => .ok w
          | .error e => .error (decodingError nm e))
    ∧ decode E d (.ptr (.textUnm nm u um)) v =
        decodeSingleToken E d (.ptr (.textUnm nm u um)) v
    ∧ decode E d (.ptr (.textUnm nm u um)) v =
        ({ d with lines := rest },
          match um s with
          | .ok w => .ok (.vPtr (some w))
          | .error e => .error (decodingError ("*" ++ nm) e)) := by
  refine ⟨rfl, ?_, rfl, ?_⟩
  · rw [show decode E d (.textUnm nm u um) v = decodeSingleToken E d (.textUnm nm u um) v
        from rfl, decodeSingleToken_one hl ht]
    simp only [decodeToValue, typeName]
  · rw [show decode E d (.ptr (.textUnm nm u um)) v
        = decodeSingleToken E d (.ptr (.textUnm nm u um)) v from rfl,
      decodeSingleToken_one hl ht]
    simp only [decodeToValue, typeName]

/-- Witness for C1: a boolean-kind named type with the capability, on the
token `true` (which built-in boolean dispatch would accept), is decoded via
the capability, whose failure is wrapped with the type name. -/
theorem claim1_witness :
    decode extStub (mkDecoder ["true"])
        (.textUnm "main.T" .bool (fun _ => .error "nope")) (.vBool false) =
      (mkDecoder [], .error (.msg "error decoding to main.T: nope")) := by
  have h := (claim1_textUnmarshaler_priority extStub (mkDecoder ["true"]) "main.T" .bool
    (fun _ => .error "nope") (.vBool false) "true" "true" [] rfl rfl).2.1
  exact h.trans (by rfl)

/-! ## C3: single-token arity rule for scalar-shaped destinations -/

/-- C3: every scalar-shaped destination decoded directly tokenizes the
current line; a token count other than exactly one is an arity error naming
the destination type and the count, and only a count of exactly one proceeds
to `decodeToValue`. -/
theorem claim3_scalar_single_token
    (E : Externals) (d : Decoder) (ty : GoType) (v : Value)
    (l : String) (rest ts : List String)
    (hsh : singleTokenShaped ty = true)
    (hl : d.lines = l :: rest) (ht : d.t l = .ok ts) :
    decode E d ty v = decodeSingleToken E d ty v
    ∧ (ts.length ≠ 1 →
        decode E d ty v =
          ({ d with lines := rest },
            .error (.msg ("decoding " ++ typeName ty ++ ": expected 1 token, but found "
              ++ toString ts.length))))
    ∧ (∀ s, ts = [s] →
        decode E d ty v =
          ({ d with lines := rest }, decodeToValue E d.dp (typeName ty) ty v s)) := by
  have hdisp : decode E d ty v = decodeSingleToken E d ty v := by
    cases ty with
    | duration => rfl
    | time => rfl
    | bool => rfl
    | int w0 => rfl
    | uint w0 => rfl
    | float w0 => rfl
    | textUnm nm u um => rfl
    | ptr et =>
      cases et with
      | time => rfl
      | textUnm nm u um => rfl
      | _ => simp [singleTokenShaped] at hsh
    | _ => simp [singleTokenShaped] at hsh
  refine ⟨hdisp, fun hlen => ?_, fun s hts => ?_⟩
  · rw [hdisp, decodeSingleToken_arity hl ht hlen]
  · subst hts
    rw [hdisp, decodeSingleToken_one hl ht]

/-- Witness for C3: two tokens for an `int64` destination is an arity error
naming the type and the count. -/
theorem claim3_witness :
    decode extStub { lines := ["x y"], t := twoTok, dp := dpStub } (.int 64) (.vInt 0) =
      ({ lines := [], t := twoTok, dp := dpStub },
        .error (.msg "decoding int64: expected 1 token, but found 2")) := by
  have h := (claim3_scalar_single_token extStub
    { lines := ["x y"], t := twoTok, dp := dpStub } (.int 64) (.vInt 0)
    "x y" [] ["a", "b"] rfl rfl rfl).2.1 (by decide)
  exact h.trans (by rfl)

/-! ## C4: the regexp tokenizer -/

/-- C4: the tokenizer installed by `WithTokenRegexp` applies the pattern's
`FindStringSubmatch` to the entire line: no match is a tokenization error
naming the line; a match with zero capture groups (submatch list of length
one) is the `no subexpressions` error; otherwise the full match is discarded
and the capture groups, in order, are the tokens. -/
theorem claim4_regexp_capture_groups
    (d : Decoder) (re : String → Option (String × List String)) (s : String) :
    (re s = none →
      (WithTokenRegexp d re).t s = .error ("regexp failed to match line " ++ s))
    ∧ (∀ full, re s = some (full, []) →
        (WithTokenRegexp d re).t s = .error "regexp has no subexpressions")
    ∧ (∀ full g gs, re s = some (full, g :: gs) →
        (WithTokenRegexp d re).t s = .ok (g :: gs)) := by
  refine ⟨fun h => ?_, fun full h => ?_, fun full g gs h => ?_⟩ <;>
    simp [WithTokenRegexp, WithTokenizer, h]

/-- Witness for C4: the example pattern yields the three capture groups as
tokens, and a zero-capture pattern fails with `no subexpressions`. -/
theorem claim4_witness :
    (WithTokenRegexp (mkDecoder []) reJohn).t "John 23x42" = .ok ["John", "23", "42"]
    ∧ (WithTokenRegexp (mkDecoder []) reZero).t "x" = .error "regexp has no subexpressions" := by
  constructor
  · exact (claim4_regexp_capture_groups (mkDecoder []) reJohn "John 23x42").2.2
      "John 23x42" "John" ["23", "42"] (by simp [reJohn])
  · exact (claim4_regexp_capture_groups (mkDecoder []) reZero "x").2.1 "x" rfl

/-! ## C6: a bare string destination consumes the whole line -/

/-- C6: a string-kind destination decoded directly is routed through
`decodeLine`: the entire next line is assigned to it as a string, the
outcome being independent of the active tokenizer (which never runs) and
never an arity error. -/
theorem claim6_string_whole_line
    (E : Externals) (d : Decoder) (v : Value) (l : String) (rest : List String)
    (hl : d.lines = l :: rest) :
    decode E d .string v = decodeLine E d .string v
    ∧ decode E d .string v = ({ d with lines := rest }, .ok (.vString l)) := by
  refine ⟨rfl, ?_⟩
  rw [show decode E d .string v = decodeLine E d .string v from rfl, decodeLine_run hl]
  rfl

/-- Witness for C6: a multi-word line decodes into a string destination even
under a tokenizer that fails on every line — the tokenizer is not
consulted. -/
theorem claim6_witness :
    decode extStub { lines := ["hello world"], t := boomTok, dp := dpStub }
        .string (.vString "old") =
      ({ lines := [], t := boomTok, dp := dpStub }, .ok (.vString "hello world")) := by
  exact (claim6_string_whole_line extStub
    { lines := ["hello world"], t := boomTok, dp := dpStub }
    (.vString "old") "hello world" [] rfl).2.trans (by rfl)

/-! ## C8: pointer auto-instantiation -/

/-- For a pointer whose element type is not `time.Time` and not a
text-unmarshaler (those take the single-token path), `decode` instantiates a
nil pointer and recurses into the pointee with the full dispatch, wrapping
the recursive outcome back into the pointer. -/
theorem decode_ptr_generic {E : Externals} {d : Decoder} {et : GoType}
    {v : Value} (hnp : isTextUnmarshaler (.ptr et) = false)
    {d1 : Decoder} {r : Except DErr Value}
    (hrec : decode E d et (pointee et (maybeInstantiatePtr et v)) = (d1, r)) :
    decode E d (.ptr et) v = (d1, r.map (fun w => .vPtr (some w))) := by
  cases et with
  | time => simp [isTextUnmarshaler] at hnp
  | textUnm nm u um => simp [isTextUnmarshaler] at hnp
  | other nm =>
    simp only [decode] at hrec ⊢
    cases r with
    | ok w1 => simp at hrec
    | error e =>
      simp only [Prod.mk.injEq] at hrec
      rw [← hrec.1, ← hrec.2]
      simp [Except.map]
  | _ =>
    simp only [decode] at hrec ⊢
    rw [hrec]
    cases r <;> simp [Except.map]

theorem ptrIterTy_bool_not_tu : ∀ k, isTextUnmarshaler (.ptr (ptrIterTy k .bool)) = false
  | 0 => rfl
  | _ + 1 => rfl

/-- C8: a nil pointer level is instantiated with a zero-valued target and a
non-nil level is reused as-is; `decode` on a pointer recurses into the
(instantiated) pointee with the same dispatch from the top; consequently a
completely unset `k`-fold indirected boolean destination decodes a `true`
token into the boolean reachable through all `k` freshly allocated
levels. -/
theorem claim8_pointer_instantiation
    (E : Externals) (d : Decoder) (et : GoType) (v : Value)
    (k : Nat) (l s : String) (rest : List String)
    (hl : d.lines = l :: rest) (ht : d.t l = .ok [s]) (hs : sToLower s = "true") :
    maybeInstantiatePtr et (.vPtr none) = .vPtr (some (zeroValue et))
    ∧ (∀ w0, maybeInstantiatePtr et (.vPtr (some w0)) = .vPtr (some w0))
    ∧ (isTextUnmarshaler (.ptr et) = false →
        ∀ d1 r, decode E d et (pointee et (maybeInstantiatePtr et v)) = (d1, r) →
          decode E d (.ptr et) v = (d1, r.map (fun w => .vPtr (some w))))
    ∧ decode E d (ptrIterTy k .bool) (zeroValue (ptrIterTy k .bool)) =
        ({ d with lines := rest }, .ok (someIter k (.vBool true))) := by
  refine ⟨rfl, fun w0 => rfl, fun hnp d1 r hrec => decode_ptr_generic hnp hrec, ?_⟩
  induction k with
  | zero =>
    rw [show decode E d (ptrIterTy 0 .bool) (zeroValue (ptrIterTy 0 .bool))
        = decodeSingleToken E d .bool (.vBool false) from rfl,
      decodeSingleToken_one hl ht]
    simp [decodeToValue, hs, someIter]
  | succ k ih =>
    have hrec : decode E d (ptrIterTy k .bool)
        (pointee (ptrIterTy k .bool)
          (maybeInstantiatePtr (ptrIterTy k .bool) (zeroValue (.ptr (ptrIterTy k .bool))))) =
        ({ d with lines := rest }, .ok (someIter k (.vBool true))) := by
      rw [show pointee (ptrIterTy k .bool)
          (maybeInstantiatePtr (ptrIterTy k .bool) (zeroValue (.ptr (ptrIterTy k .bool))))
          = zeroValue (ptrIterTy k .bool) from rfl]
      exact ih
    exact (decode_ptr_generic (ptrIterTy_bool_not_tu k) hrec).trans (by rfl)

/-- Witness for C8: a doubly-indirected boolean destination starting
completely unset (`vPtr none`) decodes `true` with both levels allocated. -/
theorem claim8_witness :
    decode extStub (mkDecoder ["true"]) (ptrIterTy 2 .bool) (zeroValue (ptrIterTy 2 .bool)) =
      (mkDecoder [], .ok (.vPtr (some (.vPtr (some (.vBool true)))))) := by
  have h := (claim8_pointer_instantiation extStub (mkDecoder ["true"]) .bool (.vBool false)
    2 "true" "true" [] rfl rfl (by rfl)).2.2.2
  exact h.trans (by rfl)

/-! ## C10: slices of plain pointer element types are rejected -/

/-- C10: for an element type that is a pointer to a plain scalar kind (so
neither `*time.Time` nor a text-unmarshaler), decoding into the slice fails
with the `not supported` error naming the slice type — while the identical
pointer type, decoded directly with a one-token line whose token converts,
succeeds. -/
theorem claim10_slice_of_pointer_rejected
    (E : Externals) (d : Decoder) (et : GoType) (v : Value)
    (hk : plainScalarKind et = true) :
    decode E d (.slice (.ptr et)) v =
      (d, .error (.msg ("decoding to this slice type not supported: "
        ++ typeName (.slice (.ptr et)))))
    ∧ (∀ l rest s w, d.lines = l :: rest → d.t l = .ok [s] →
        decodeToValue E d.dp (typeName et) et (zeroValue et) s = .ok w →
        decode E d (.ptr et) (.vPtr none) =
          ({ d with lines := rest }, .ok (.vPtr (some w)))) := by
  constructor
  · have hnd : isDecodableValue (.ptr et) = false := by
      cases et <;> simp_all [plainScalarKind, isDecodableValue, isTextUnmarshaler, isScalarKind]
    rw [show decode E d (.slice (.ptr et)) v = decodeSlice E d (.slice (.ptr et)) v from rfl]
    simp [decodeSlice, hnd, typeName]
  · intro l rest s w hl ht hv
    have hnp : isTextUnmarshaler (.ptr et) = false := by
      cases et <;> simp_all [plainScalarKind, isTextUnmarshaler]
    have hdisp : decode E d et (zeroValue et) = decodeSingleToken E d et (zeroValue et) := by
      cases et <;> first | rfl | simp [plainScalarKind] at hk
    have hrec : decode E d et (pointee et (maybeInstantiatePtr et (Value.vPtr none))) =
        ({ d with lines := rest }, .ok w) := by
      rw [show pointee et (maybeInstantiatePtr et (Value.vPtr none)) = zeroValue et from rfl,
        hdisp, decodeSingleToken_one hl ht, hv]
    rw [decode_ptr_generic hnp hrec]
    rfl

/-- Witness for C10: `[]*int64` is refused with the `not supported` error,
while `*int64` decodes `42` directly into a freshly allocated pointer. -/
theorem claim10_witness :
    decode extStub (mkDecoder ["42"]) (.slice (.ptr (.int 64))) (.vSlice []) =
      (mkDecoder ["42"],
        .error (.msg "decoding to this slice type not supported: []*int64"))
    ∧ decode extStub (mkDecoder ["42"]) (.ptr (.int 64)) (.vPtr none) =
        (mkDecoder [], .ok (.vPtr (some (.vInt 42)))) := by
  have h := claim10_slice_of_pointer_rejected extStub (mkDecoder ["42"]) (.int 64)
    (.vSlice []) rfl
  constructor
  · exact h.1.trans (by rfl)
  · exact (h.2 "42" [] "42" (.vInt 42) rfl rfl (by rfl)).trans (by rfl)

/-! ## C2: struct decoding -/

theorem decodeFields_of_ok {E : Externals} {dp : String → Except String Int}
    {nm : String} {fs : List (String × Bool × GoType)} {ts : List String}
    {ws : List Value} (h : FieldsDecodeOk E dp nm fs ts ws) :
    decodeFields E dp nm fs ts = .ok (ws ++ zeroFields (List.drop ts.length fs)) := by
  induction h with
  | nil fs => simp [decodeFields]
  | cons hdec htail ih => simp [decodeFields, hdec, ih]

theorem decodeFields_too_many {E : Externals} {dp : String → Except String Int}
    {nm : String} :
    ∀ {fs : List (String × Bool × GoType)} {ts : List String} {ws : List Value},
      fs.length < ts.length →
      FieldsDecodeOk E dp nm fs (ts.take fs.length) ws →
      decodeFields E dp nm fs ts = .error (.msg ("too many tokens for struct " ++ nm)) := by
  intro fs
  induction fs with
  | nil =>
    intro ts ws hlen hok
    cases ts with
    | nil => simp at hlen
    | cons s ts2 => rfl
  | cons f fs2 ih =>
    intro ts ws hlen hok
    obtain ⟨fname, ex, fty⟩ := f
    cases ts with
    | nil => simp at hlen
    | cons s ts2 =>
      rw [List.length_cons, List.take_succ_cons] at hok
      cases hok with
      | cons hdec htail =>
        simp only [decodeFields, Bool.not_true, Bool.false_eq_true, if_false, hdec]
        rw [ih (by simp at hlen ⊢; omega) htail]

/-- Counterexample to C2 as stated: the struct `S` has `m = 1` exported
field (`A`, of kind `int64`) and the line `x` tokenizes to `n = 1 ≤ m`
tokens, yet decoding does not succeed — the token fails to convert into the
field, so the result is a parse error, not the success the claim asserts for
every line with `n ≤ m`. -/
theorem claim2_counterexample :
    (mkDecoder ["x"]).t "x" = .ok ["x"]
    ∧ decode extStub (mkDecoder ["x"])
        (.struct "S" [("A", true, .int 64)]) (.vStruct [.vInt 7]) =
      (mkDecoder [],
        .error (.msg "error decoding to S.A: strconv.ParseInt: parsing \"x\": invalid syntax")) :=
  ⟨rfl, rfl⟩

/-- C2 (amended): with every consumed token decoding successfully into its
(exported) field, a line of `n ≤ m` tokens succeeds with the first `n`
fields holding the decoded values in declared order and the remaining
`m - n` fields zero, regardless of the destination's prior contents; and a
line of `n > m` tokens whose first `m` tokens decode successfully into the
fields fails with the arity error naming the struct type. -/
theorem claim2_struct_arity_and_reset
    (E : Externals) (d : Decoder) (nm : String)
    (fs : List (String × Bool × GoType)) (v : Value)
    (l : String) (rest ts : List String) (ws : List Value)
    (hl : d.lines = l :: rest) (ht : d.t l = .ok ts) :
    (FieldsDecodeOk E d.dp nm fs ts ws →
      decode E d (.struct nm fs) v =
        ({ d with lines := rest },
          .ok (.vStruct (ws ++ zeroFields (List.drop ts.length fs)))))
    ∧ (fs.length < ts.length →
        FieldsDecodeOk E d.dp nm fs (ts.take fs.length) ws →
        decode E d (.struct nm fs) v =
          ({ d with lines := rest },
            .error (.msg ("too many tokens for struct " ++ nm)))) := by
  have hds : decode E d (.struct nm fs) v = decodeStruct E d (.struct nm fs) v := rfl
  constructor
  · intro hok
    rw [hds]
    simp only [decodeStruct, Tokens_run hl ht]
    rw [decodeFields_of_ok hok]
  · intro hlen hok
    rw [hds]
    simp only [decodeStruct, Tokens_run hl ht]
    rw [decodeFields_too_many hlen hok]

/-- Witness for C2 (amended): a two-field struct given one decodable token
succeeds, the prior contents being replaced — first field decoded, second
field zeroed. -/
theorem claim2_witness :
    decode extStub (mkDecoder ["42"])
        (.struct "S" [("A", true, .int 64), ("B", true, .string)])
        (.vStruct [.vInt 9, .vString "old"]) =
      (mkDecoder [], .ok (.vStruct [.vInt 42, .vString ""])) := by
  have h := (claim2_struct_arity_and_reset extStub (mkDecoder ["42"]) "S"
    [("A", true, .int 64), ("B", true, .string)] (.vStruct [.vInt 9, .vString "old"])
    "42" [] ["42"] [.vInt 42] rfl rfl).1
    (.cons (by rfl) (.nil _))
  exact h.trans (by rfl)

/-! ## C9: slice decoding -/

theorem decodeElems_of_ok {E : Externals} {dp : String → Except String Int}
    {et : GoType} {i : Nat} {ts : List String} {ws : List Value}
    (h : ElemsDecode E dp et i ts ws) :
    decodeElems E dp et i ts = .ok ws := by
  induction h with
  | nil i => rfl
  | cons hdec htail ih => simp [decodeElems, hdec, ih]

/-- C9: decoding into a slice with an unsupported element shape fails with
the `not supported` error naming the slice type, returning the decoder
unchanged — no line is consumed, so the next line remains available; for a
supported element shape, the line's tokens are decoded into fresh elements
and appended in token order to the slice's existing contents, zero tokens
appending zero elements without error. -/
theorem claim9_slice_append_and_eager_check
    (E : Externals) (d : Decoder) (et : GoType) (v : Value)
    (l : String) (rest ts : List String) (ws old : List Value) :
    (isDecodableValue et = false →
      decode E d (.slice et) v =
        (d, .error (.msg ("decoding to this slice type not supported: "
          ++ typeName (.slice et)))))
    ∧ (isDecodableValue et = true → d.lines = l :: rest → d.t l = .ok ts →
        ElemsDecode E d.dp et 0 ts ws →
        decode E d (.slice et) (.vSlice old) =
          ({ d with lines := rest }, .ok (.vSlice (old ++ ws)))) := by
  have hds : ∀ v0, decode E d (.slice et) v0 = decodeSlice E d (.slice et) v0 :=
    fun v0 => rfl
  constructor
  · intro hnd
    rw [hds v]
    simp [decodeSlice, hnd]
  · intro hd hl ht hok
    rw [hds (.vSlice old)]
    simp only [decodeSlice, hd, Bool.not_true, Bool.false_eq_true, if_false,
      Tokens_run hl ht]
    rw [decodeElems_of_ok hok]
    rfl

/-- Witness for C9: two tokens decode into two fresh `uint8` elements,
appended after the slice's existing element. -/
theorem claim9_witness :
    decode extStub { lines := ["1 2"], t := pairTok, dp := dpStub }
        (.slice (.uint 8)) (.vSlice [.vUint 9]) =
      ({ lines := [], t := pairTok, dp := dpStub },
        .ok (.vSlice [.vUint 9, .vUint 1, .vUint 2])) := by
  have h := (claim9_slice_append_and_eager_check extStub
    { lines := ["1 2"], t := pairTok, dp := dpStub } (.uint 8) (.vSlice [.vUint 9])
    "1 2" [] ["1", "2"] [.vUint 1, .vUint 2] [.vUint 9]).2
    rfl rfl rfl (.cons (by rfl) (.cons (by rfl) (.nil _)))
  exact h.trans (by rfl)

/-! ## C5: the batch driver -/

theorem decodeAll_eof {E : Externals} {d d' : Decoder} {ty : GoType}
    {acc : List Value} (h : decode E d ty (zeroValue ty) = (d', .error .eof)) :
    decodeAll E d ty acc = (d', acc, none) := by
  rw [decodeAll]
  split <;> simp_all

theorem decodeAll_msg {E : Externals} {d d' : Decoder} {ty : GoType}
    {acc : List Value} {e : String}
    (h : decode E d ty (zeroValue ty) = (d', .error (.msg e))) :
    decodeAll E d ty acc = (d', acc, some e) := by
  rw [decodeAll]
  split <;> simp_all

theorem decodeAll_step {E : Externals} {d d' : Decoder} {ty : GoType}
    {acc : List Value} {w : Value}
    (h : decode E d ty (zeroValue ty) = (d', .ok w)) :
    decodeAll E d ty acc = decodeAll E d' ty (acc ++ [w]) := by
  rw [decodeAll]
  split <;> simp_all

/-- C5: after a run of successful line decodes producing `vs` (one element
per consumed line, as the length equation states), the batch driver returns
success (`none`) once `decode` reports end-of-input, having appended the
elements in line order; and if `decode` instead fails with any non-sentinel
error, that failure is returned immediately with the previously appended
elements still in the destination. -/
theorem claim5_batch_driver
    (E : Externals) (ty : GoType) (d : Decoder) (vs : List Value) (d₁ : Decoder)
    (acc : List Value) (hch : DecodeChain E ty d vs d₁) :
    (∀ d₂, decode E d₁ ty (zeroValue ty) = (d₂, .error .eof) →
        decodeAll E d ty acc = (d₂, acc ++ vs, none))
    ∧ (∀ d₂ e, decode E d₁ ty (zeroValue ty) = (d₂, .error (.msg e)) →
        decodeAll E d ty acc = (d₂, acc ++ vs, some e))
    ∧ d.lines.length = vs.length + d₁.lines.length := by
  induction hch generalizing acc with
  | nil d0 =>
    refine ⟨fun d₂ h => ?_, fun d₂ e h => ?_, by simp⟩
    · rw [decodeAll_eof h]; simp
    · rw [decodeAll_msg h]; simp
  | cons hdec htail ih =>
    refine ⟨fun d₂ h => ?_, fun d₂ e h => ?_, ?_⟩
    · rw [decodeAll_step hdec, (ih _).1 d₂ h]
      simp
    · rw [decodeAll_step hdec, (ih _).2.1 d₂ e h]
      simp
    · have h1 := decode_ok_lines hdec
      have h2 := (ih acc).2.2
      simp only [List.length_cons]
      omega

/-- Witness for C5: driving the batch driver over the two lines `42`, `23`
into an `int64` slice yields both values in order and a success outcome. -/
theorem claim5_witness :
    decodeAll extStub (mkDecoder ["42", "23"]) (.int 64) [] =
      (mkDecoder [], [.vInt 42, .vInt 23], none) := by
  have h := (claim5_batch_driver extStub (.int 64) (mkDecoder ["42", "23"])
    [.vInt 42, .vInt 23] (mkDecoder []) []
    (.cons (by rfl) (.cons (by rfl) (.nil _)))).1 (mkDecoder []) (by rfl)
  exact h.trans (by rfl)

/-! ## C7: unsigned integer parsing -/

theorem charDigit_underscore : charDigit '_' = none := by decide

theorem digitsVal_ge {base : Nat} (hb : 1 ≤ base) :
    ∀ {ds : List Char} {n V : Nat}, digitsVal base ds n = some V → n ≤ V := by
  intro ds
  induction ds with
  | nil => intro n V h; simp [digitsVal] at h; omega
  | cons c cs ih =>
    intro n V h
    simp only [digitsVal] at h
    cases hd : digitVal base c with
    | none => rw [hd] at h; simp at h
    | some dd =>
      rw [hd] at h
      have h1 := ih h
      have h2 : n ≤ n * base := Nat.le_mul_of_pos_right n (by omega)
      omega

theorem parseUintLoop_correct {base maxVal : Nat} (hb : 2 ≤ base)
    (hmax : maxVal ≤ 2 ^ 64 - 1) :
    ∀ (ds : List Char) (n : Nat) (us : Bool) (V : Nat),
      digitsVal base ds n = some V → n ≤ maxVal →
      parseUintLoop true base ((2 ^ 64 - 1) / base + 1) maxVal ds n us =
        (if V ≤ maxVal then .ok (V, us) else .error .outOfRange) := by
  intro ds
  induction ds with
  | nil =>
    intro n us V h hn
    simp only [digitsVal, Option.some.injEq] at h
    subst h
    simp [parseUintLoop, hn]
  | cons c cs ih =>
    intro n us V h hn
    simp only [digitsVal] at h
    cases hd : digitVal base c with
    | none => rw [hd] at h; simp at h
    | some dd =>
      rw [hd] at h
      have hcd : charDigit c = some dd ∧ dd < base := by
        simp only [digitVal] at hd
        cases hcc : charDigit c with
        | none => rw [hcc] at hd; simp at hd
        | some d0 =>
          rw [hcc] at hd
          simp at hd
          obtain ⟨h1, h2⟩ := hd
          constructor
          · exact congrArg some (by omega)
          · omega
      have hcu : c ≠ '_' := by
        intro hc
        rw [hc, charDigit_underscore] at hcd
        exact absurd hcd.1 (by simp)
      have hVge : n * base + dd ≤ V := digitsVal_ge (by omega) h
      have hcond : (decide (c = '_') && true) = false := by simp [hcu]
      simp only [parseUintLoop, hcond, Bool.false_eq_true, if_false, hcd.1]
      rw [if_neg (by omega : ¬ base ≤ dd)]
      by_cases hcut : (2 ^ 64 - 1) / base + 1 ≤ n
      · have hnb : 2 ^ 64 - 1 < n * base :=
          (Nat.div_lt_iff_lt_mul (by omega)).mp (by omega)
        have h7 : maxVal < n * base + dd :=
          lt_of_le_of_lt hmax (lt_of_lt_of_le hnb (Nat.le_add_right _ _))
        have hVbig : maxVal < V := lt_of_lt_of_le h7 hVge
        rw [if_pos hcut, if_neg (by omega : ¬ V ≤ maxVal)]
      · rw [if_neg hcut]
        by_cases hov : maxVal < n * base + dd
        · rw [if_pos hov]
          have hVbig : maxVal < V := lt_of_lt_of_le hov hVge
          rw [if_neg (by omega : ¬ V ≤ maxVal)]
        · rw [if_neg hov]
          exact ih (n * base + dd) us V h (Nat.le_of_not_lt hov)

theorem detectBase_ge (s0 : List Char) : 2 ≤ (detectBase s0).1 := by
  cases s0 with
  | nil => exact (by omega : (2 : Nat) ≤ 10)
  | cons c0 rest =>
    simp only [detectBase]
    by_cases h0 : c0 = '0'
    · rw [if_pos h0]
      cases rest with
      | nil => exact (by omega : (2 : Nat) ≤ 8)
      | cons c1 rest1 =>
        cases rest1 with
        | nil => exact (by omega : (2 : Nat) ≤ 8)
        | cons c2 rest2 =>
          show 2 ≤ (if lowerC c1 = 'b' then ((2 : Nat), c2 :: rest2)
            else if lowerC c1 = 'o' then (8, c2 :: rest2)
            else if lowerC c1 = 'x' then (16, c2 :: rest2)
            else (8, c1 :: c2 :: rest2)).1
          split_ifs <;> simp
    · rw [if_neg h0]
      exact (by omega : (2 : Nat) ≤ 10)

theorem parseUintChars_correct {s0 : List Char} {V : Nat} (bitSize : Nat)
    (hw : 1 ≤ bitSize) (h64 : bitSize ≤ 64) (hne : ¬ s0 = [])
    (hV : digitsVal (detectBase s0).1 (detectBase s0).2 0 = some V) :
    parseUintChars s0 bitSize =
      (if V ≤ 2 ^ bitSize - 1 then .ok V else .error .outOfRange) := by
  have hb : 2 ≤ (detectBase s0).1 := detectBase_ge s0
  have hmax : 2 ^ bitSize - 1 ≤ 2 ^ 64 - 1 := by
    have := Nat.pow_le_pow_right (show 1 ≤ 2 by omega) h64
    omega
  unfold parseUintChars
  rw [if_neg hne]
  rw [parseUintLoop_correct hb hmax (detectBase s0).2 0 false V hV (Nat.zero_le _)]
  by_cases hv : V ≤ 2 ^ bitSize - 1
  · simp [hv]
  · simp [hv]

theorem parseUint_neg_sign (s2 : String) (bitSize : Nat) :
    parseUint ("-" ++ s2) bitSize = .error .invalid := by
  unfold parseUint parseUintChars
  rw [String.data_append, show ("-" : String).data = ['-'] from rfl,
    List.singleton_append]
  rw [if_neg (by simp)]
  have hdb : detectBase ('-' :: s2.data) = (10, '-' :: s2.data) := by
    simp only [detectBase]
    rw [if_neg (by decide)]
  rw [hdb]
  have hloop : ∀ cutoff maxVal us,
      parseUintLoop true 10 cutoff maxVal ('-' :: s2.data) 0 us = .error .invalid := by
    intro cutoff maxVal us
    simp only [parseUintLoop]
    rw [if_neg (by decide), show charDigit '-' = none from by decide]
  rw [hloop]

/-- C7: for a `w`-bit unsigned integer destination, a token with a leading
minus sign always fails with the invalid-syntax parse error (never a range
error); a well-formed non-negative literal (per the reference grammar
`uintLitVal`) of value above `2^w - 1` fails with the out-of-range parse
error; and one of value at most `2^w - 1` decodes to exactly that value. -/
theorem claim7_unsigned_integer_ranges
    (E : Externals) (dp : String → Except String Int) (name : String)
    (w0 : Nat) (v : Value) (hw : 1 ≤ w0) (h64 : w0 ≤ 64) :
    (∀ s2, decodeToValue E dp name (.uint w0) v ("-" ++ s2) =
        .error (decodingError name (numErrorString "ParseUint" ("-" ++ s2) .invalid)))
    ∧ (∀ s V, uintLitVal s = some V → 2 ^ w0 - 1 < V →
        decodeToValue E dp name (.uint w0) v s =
          .error (decodingError name (numErrorString "ParseUint" s .outOfRange)))
    ∧ (∀ s V, uintLitVal s = some V → V ≤ 2 ^ w0 - 1 →
        decodeToValue E dp name (.uint w0) v s = .ok (.vUint V)) := by
  refine ⟨fun s2 => ?_, fun s V hV hgt => ?_, fun s V hV hle => ?_⟩
  · simp only [decodeToValue]
    rw [parseUint_neg_sign]
  · have hne : ¬ s.data = [] := by
      intro h0
      simp [uintLitVal, h0] at hV
    have hVd : digitsVal (detectBase s.data).1 (detectBase s.data).2 0 = some V := by
      simpa [uintLitVal, hne] using hV
    simp only [decodeToValue, parseUint]
    rw [parseUintChars_correct w0 hw h64 hne hVd, if_neg (by omega : ¬ V ≤ 2 ^ w0 - 1)]
  · have hne : ¬ s.data = [] := by
      intro h0
      simp [uintLitVal, h0] at hV
    have hVd : digitsVal (detectBase s.data).1 (detectBase s.data).2 0 = some V := by
      simpa [uintLitVal, hne] using hV
    simp only [decodeToValue, parseUint]
    rw [parseUintChars_correct w0 hw h64 hne hVd, if_pos hle]

/-- Witness for C7: into an 8-bit unsigned integer, `-1` is an
invalid-syntax parse error, `256` an out-of-range parse error, and `255`
decodes to the value 255. -/
theorem claim7_witness :
    decodeToValue extStub dpStub "uint8" (.uint 8) (.vUint 0) "-1" =
      .error (.msg "error decoding to uint8: strconv.ParseUint: parsing \"-1\": invalid syntax")
    ∧ decodeToValue extStub dpStub "uint8" (.uint 8) (.vUint 0) "256" =
      .error (.msg "error decoding to uint8: strconv.ParseUint: parsing \"256\": value out of range")
    ∧ decodeToValue extStub dpStub "uint8" (.uint 8) (.vUint 0) "255" = .ok (.vUint 255) := by
  have h := claim7_unsigned_integer_ranges extStub dpStub "uint8" 8 (.vUint 0)
    (by omega) (by omega)
  refine ⟨?_, ?_, ?_⟩
  · exact (h.1 "1").trans (by rfl)
  · exact (h.2.1 "256" 256 (by rfl) (by norm_num)).trans (by rfl)
  · exact h.2.2 "255" 255 (by rfl) (by norm_num)

end Strum
